import Mathlib

/-!
Shallow embedding of application.py, a Go-Back-N file transfer protocol
(DRTP) over UDP.  Byte strings are lists of natural numbers (each byte
below 256).  Python exceptions are modelled explicitly: functions that can
raise return Option (none = the exception propagates), and loop bodies
whose exceptions are caught return an explicit outcome constructor.

The flag test in Python is a truthiness test on a bitwise and, modelled
with Nat.land; the flag constants are single bits so the nonzero test is
exact.
-/

namespace DRTP

/- Protocol constants, application.py lines 8 to 16. -/

def syn_flag : Nat := 0b0100

def ack_flag : Nat := 0b0010

def fin_flag : Nat := 0b1000

def header_size : Nat := 8

def max_data : Nat := 992

/-- create_header, application.py line 42: struct.pack with format !HHHH
    packs four unsigned 16-bit fields big endian; struct.error is raised
    (modelled as none) when a field is outside 0..65535.  No masking is
    performed by the source. -/
def create_header (seq_num ack_num flags recv_window : Nat) : Option (List Nat) :=
  if seq_num < 65536 ∧ ack_num < 65536 ∧ flags < 65536 ∧ recv_window < 65536 then
    some [seq_num / 256, seq_num % 256, ack_num / 256, ack_num % 256,
          flags / 256, flags % 256, recv_window / 256, recv_window % 256]
  else none

/-- parse_header, application.py line 60: struct.unpack with format !HHHH
    requires exactly 8 bytes, else struct.error (none). -/
def parse_header (header_bytes : List Nat) : Option (Nat × Nat × Nat × Nat) :=
  if header_bytes.length = 8 then
    some (256 * header_bytes.getD 0 0 + header_bytes.getD 1 0,
          256 * header_bytes.getD 2 0 + header_bytes.getD 3 0,
          256 * header_bytes.getD 4 0 + header_bytes.getD 5 0,
          256 * header_bytes.getD 6 0 + header_bytes.getD 7 0)
  else none

/-- create_packet, application.py lines 63 to 87: header concatenated with
    the data bytes. -/
def create_packet (seq_num ack_num flags recv_window : Nat) (data : List Nat) :
    Option (List Nat) :=
  match create_header seq_num ack_num flags recv_window with
  | none => none
  | some h => some (h ++ data)

/-- extract_packet, application.py lines 89 to 111: the first 8 bytes are
    parsed as the header, the remainder is the data. -/
def extract_packet (packet : List Nat) : Option ((Nat × Nat × Nat × Nat) × List Nat) :=
  match parse_header (packet.take header_size) with
  | none => none
  | some h => some (h, packet.drop header_size)

/-- A header produced from in-range fields parses back to those fields. -/
theorem parse_create_header (s a f w : Nat)
    (hs : s < 65536) (ha : a < 65536) (hf : f < 65536) (hw : w < 65536) :
    create_header s a f w =
      some [s / 256, s % 256, a / 256, a % 256, f / 256, f % 256, w / 256, w % 256] ∧
    parse_header [s / 256, s % 256, a / 256, a % 256, f / 256, f % 256,
                  w / 256, w % 256] = some (s, a, f, w) := by
  constructor
  · unfold create_header
    rw [if_pos ⟨hs, ha, hf, hw⟩]
  · unfold parse_header
    simp only [List.length_cons, List.length_nil, List.getD]
    norm_num
    constructor
    · omega
    constructor
    · omega
    constructor
    · omega
    · omega

/-- A datagram shorter than the header size fails to parse. -/
theorem extract_packet_short (d : List Nat) (hd : d.length < 8) :
    extract_packet d = none := by
  unfold extract_packet parse_header
  have hlen : (d.take header_size).length = d.length := by
    simp [header_size]
    omega
  rw [hlen, if_neg (by omega)]

/-- C4: for all header fields in 0..65535, parse_header inverts
    create_header; and for any payload of at most 992 bytes,
    extract_packet inverts create_packet, returning the fields and the
    payload unchanged. -/
theorem c4_codec_roundtrip (s a f w : Nat) (p : List Nat)
    (hs : s < 65536) (ha : a < 65536) (hf : f < 65536) (hw : w < 65536)
    (hp : p.length ≤ 992) :
    (create_header s a f w).bind parse_header = some (s, a, f, w) ∧
    (create_packet s a f w p).bind extract_packet = some ((s, a, f, w), p) := by
  obtain ⟨h1, h2⟩ := parse_create_header s a f w hs ha hf hw
  constructor
  · rw [h1]
    exact h2
  · unfold create_packet
    rw [h1]
    show extract_packet (([s / 256, s % 256, a / 256, a % 256, f / 256, f % 256,
        w / 256, w % 256] : List Nat) ++ p) = some ((s, a, f, w), p)
    unfold extract_packet
    have htake : (([s / 256, s % 256, a / 256, a % 256, f / 256, f % 256,
        w / 256, w % 256] : List Nat) ++ p).take header_size =
        [s / 256, s % 256, a / 256, a % 256, f / 256, f % 256, w / 256, w % 256] := rfl
    have hdrop : (([s / 256, s % 256, a / 256, a % 256, f / 256, f % 256,
        w / 256, w % 256] : List Nat) ++ p).drop header_size = p := rfl
    rw [htake, hdrop, h2]

/-- Witness for C4 at concrete fields (1, 2, 515, 65535) and payload
    [7, 8, 9]. -/
theorem c4_codec_roundtrip_witness :
    (1 : Nat) < 65536 ∧ (2 : Nat) < 65536 ∧ (515 : Nat) < 65536 ∧
    (65535 : Nat) < 65536 ∧ ([7, 8, 9] : List Nat).length ≤ 992 ∧
    (create_header 1 2 515 65535).bind parse_header = some (1, 2, 515, 65535) ∧
    (create_packet 1 2 515 65535 [7, 8, 9]).bind extract_packet =
      some ((1, 2, 515, 65535), [7, 8, 9]) := by
  refine ⟨by decide, by decide, by decide, by decide, by decide, ?_, ?_⟩
  · exact (c4_codec_roundtrip 1 2 515 65535 [7, 8, 9] (by decide) (by decide)
      (by decide) (by decide) (by decide)).1
  · exact (c4_codec_roundtrip 1 2 515 65535 [7, 8, 9] (by decide) (by decide)
      (by decide) (by decide) (by decide)).2

/-- C9 counterexample: create_header is not total with masking to the low
    16 bits.  At seq_num = 65536 struct.pack raises struct.error (none),
    which differs from the header of the masked value 0. -/
theorem c9_counterexample :
    create_header 65536 0 0 0 ≠
      create_header (65536 % 2 ^ 16) (0 % 2 ^ 16) (0 % 2 ^ 16) (0 % 2 ^ 16) := by
  decide

/-- C9 amended: create_header succeeds exactly when every field is in
    0..65535 (out-of-range fields raise struct.error, modelled as none;
    no masking happens), and a successful result is an 8-byte string of
    well-formed bytes. -/
theorem c9_amended (s a f w : Nat) :
    ((create_header s a f w).isSome ↔
      s < 65536 ∧ a < 65536 ∧ f < 65536 ∧ w < 65536) ∧
    ∀ hb, create_header s a f w = some hb →
      hb.length = 8 ∧ ∀ b ∈ hb, b < 256 := by
  constructor
  · unfold create_header
    split
    case isTrue h => simpa using h
    case isFalse h => simpa using h
  · intro hb hhb
    unfold create_header at hhb
    split at hhb
    case isTrue h =>
      rw [Option.some_inj] at hhb
      subst hhb
      refine ⟨by simp, ?_⟩
      intro b hbm
      simp only [List.mem_cons, List.not_mem_nil, or_false] at hbm
      obtain ⟨hs, ha, hf, hw⟩ := h
      rcases hbm with h1 | h1 | h1 | h1 | h1 | h1 | h1 | h1 <;> subst h1 <;> omega
    case isFalse h => exact absurd hhb (by simp)

/-- Witness for C9 amended at fields (300, 1, 2, 3). -/
theorem c9_amended_witness :
    create_header 300 1 2 3 = some [1, 44, 0, 1, 0, 2, 0, 3] ∧
    ([1, 44, 0, 1, 0, 2, 0, 3] : List Nat).length = 8 ∧
    ∀ b ∈ ([1, 44, 0, 1, 0, 2, 0, 3] : List Nat), b < 256 :=
  ⟨by decide, (c9_amended 300 1 2 3).2 [1, 44, 0, 1, 0, 2, 0, 3] (by decide)⟩

/-- Result of client_handshake: ok carries the returned window; timedOut
    is the None return after a socket timeout (line 157); err is an
    exception escaping the function (the raise on wrong flags at line 153,
    or struct.error, neither of which is caught there). -/
inductive HSRes where
  | ok (window : Nat)
  | timedOut
  | err
deriving DecidableEq

/-- client_handshake, application.py lines 114 to 166.  The reply argument
    is the datagram received in answer to the SYN, or none if recvfrom
    timed out.  Returns the result together with the list of datagrams the
    client sent.  The first send is the SYN packet (line 139); on a
    SYN-ACK reply the ACK packet with ack_num = peer seq + 1 is built and
    sent (line 160) before min(sender_window, recv_window) is returned. -/
def client_handshake (sender_window : Nat) (reply : Option (List Nat)) :
    HSRes × List (List Nat) :=
  match create_packet 1 0 syn_flag 0 [] with
  | none => (.err, [])
  | some synPkt =>
    match reply with
    | none => (.timedOut, [synPkt])
    | some d =>
      match extract_packet d with
      | none => (.err, [synPkt])
      | some ((seq, _, flags, recv_window), _) =>
        if flags &&& syn_flag ≠ 0 ∧ flags &&& ack_flag ≠ 0 then
          match create_packet 2 (seq + 1) ack_flag 0 [] with
          | none => (.err, [synPkt])
          | some ackPkt => (.ok (min sender_window recv_window), [synPkt, ackPkt])
        else (.err, [synPkt])

/-- Session actions the client branch of main can perform after the
    handshake (application.py lines 433 to 453): the data transfer
    (client_send_file) and the teardown (client_teardown). -/
inductive SessionAct where
  | transfer
  | teardown
deriving DecidableEq

/-- The session actions main performs for each handshake outcome: on a
    None return it prints Handshake failed and returns at once (lines 439
    to 441); on an uncaught handshake exception main dies before any
    session action; on success it transfers the file and tears down. -/
def main_client_actions : HSRes → List SessionAct
  | .ok _ => [.transfer, .teardown]
  | .timedOut => []
  | .err => []

/-- Whether main reports the handshake failure to the operator (the
    Handshake failed line, printed exactly when client_handshake returned
    None). -/
def main_client_reports_failure : HSRes → Bool
  | .timedOut => true
  | _ => false

/-- C5 counterexample: a SYN-ACK reply whose seq field is 65535 makes
    client_handshake raise struct.error while building the third
    handshake packet (ack_num = seq + 1 = 65536 is out of range for
    struct.pack), so the function does not return the negotiated window
    min(3, 15) = 3. -/
theorem c5_counterexample :
    (client_handshake 3 (some [255, 255, 0, 0, 0, 6, 0, 15])).1 = HSRes.err ∧
    (client_handshake 3 (some [255, 255, 0, 0, 0, 6, 0, 15])).1 ≠
      HSRes.ok (min 3 15) := by
  decide

/-- C5 amended: when the reply parses, its flags contain both SYN and ACK,
    and its seq field is small enough that seq + 1 still fits in 16 bits,
    client_handshake returns the negotiated window
    min(requested, advertised). -/
theorem c5_amended (sender_window : Nat) (d : List Nat)
    (seq ack flags recv_window : Nat) (p : List Nat)
    (hx : extract_packet d = some ((seq, ack, flags, recv_window), p))
    (hsyn : flags &&& syn_flag ≠ 0) (hack : flags &&& ack_flag ≠ 0)
    (hseq : seq + 1 < 65536) :
    (client_handshake sender_window (some d)).1 =
      HSRes.ok (min sender_window recv_window) := by
  have hsynP : create_packet 1 0 syn_flag 0 [] = some [0, 1, 0, 0, 0, 4, 0, 0] := by
    decide
  have hackP : create_packet 2 (seq + 1) ack_flag 0 [] =
      some [0, 2, (seq + 1) / 256, (seq + 1) % 256, 0, 2, 0, 0] := by
    unfold create_packet create_header ack_flag
    rw [if_pos (by omega)]
    norm_num
  simp only [client_handshake, hsynP, hx, hackP]
  rw [if_pos ⟨hsyn, hack⟩]

/-- Witness for C5 amended: the literal handshake reply of the protocol,
    seq = 0, flags = SYN and ACK, advertised window 15, requested 3. -/
theorem c5_amended_witness :
    extract_packet [0, 0, 0, 1, 0, 6, 0, 15] = some ((0, 1, 6, 15), []) ∧
    (6 &&& syn_flag ≠ 0) ∧ (6 &&& ack_flag ≠ 0) ∧ (0 + 1 < 65536) ∧
    (client_handshake 3 (some [0, 0, 0, 1, 0, 6, 0, 15])).1 = HSRes.ok (min 3 15) :=
  ⟨by decide, by decide, by decide, by decide,
    c5_amended 3 [0, 0, 0, 1, 0, 6, 0, 15] 0 1 6 15 [] (by decide) (by decide)
      (by decide) (by decide)⟩

/-- C7: on a receive timeout client_handshake returns None having sent
    exactly one datagram, the initial SYN packet (no retry), and the main
    client branch then reports the failure and performs no further session
    I/O: no data transfer and no teardown. -/
theorem c7_handshake_timeout (sender_window : Nat) :
    client_handshake sender_window none =
      (HSRes.timedOut, [[0, 1, 0, 0, 0, 4, 0, 0]]) ∧
    main_client_actions HSRes.timedOut = [] ∧
    main_client_reports_failure HSRes.timedOut = true := by
  refine ⟨?_, rfl, rfl⟩
  unfold client_handshake
  rfl

/-- Sender window state of client_send_file (application.py lines 200 to
    236): base (lowest unacknowledged sequence number), next_seq (next
    sequence number to send), and ts, which records whether the local
    variable timestamp has been assigned yet (it is assigned only inside
    the send loop at line 219, and is read by the prints at lines 227,
    232 and 236; reading it unassigned raises NameError). -/
structure SenderS where
  base : Nat
  next_seq : Nat
  ts : Bool
deriving DecidableEq

/-- One event observed by the receive phase of the sender loop: either a
    datagram arrives, or recvfrom times out after 400 ms. -/
inductive RecvEvent where
  | packet (dgram : List Nat)
  | timeout
deriving DecidableEq

/-- The inner send loop of client_send_file (lines 217 to 221): while
    next_seq < base + window_size and next_seq is at most total_chunks,
    send packet next_seq and increment next_seq.  The fuel argument
    N + 1 - next_seq bounds the iteration count exactly: when it reaches
    zero the guard next_seq less or equal N is already false, so the fuel
    never cuts the loop short and the function equals the Python while
    loop. -/
def send_go (N W base : Nat) : Nat → Nat → Nat
  | 0, ns => ns
  | fuel + 1, ns => if ns < base + W ∧ ns ≤ N then send_go N W base fuel (ns + 1) else ns

/-- Final value of next_seq after the send phase. -/
def send_phase (N W base next_seq : Nat) : Nat :=
  send_go N W base (N + 1 - next_seq) next_seq

/-- The receive phase of client_send_file (lines 223 to 236): the try body
    and the socket.timeout handler.  none models an exception escaping
    client_send_file: struct.error from extract_packet on a short
    datagram, or NameError from printing the unassigned timestamp, neither
    of which is socket.timeout, the only exception caught.  On an
    ACK-flagged packet the log line is printed first (line 227), then base
    becomes ack + 1 if ack is at least base (lines 228 to 229); a stale
    ack and a packet without the ACK flag leave the state unchanged; a
    timeout retransmits the window (prints, no state change). -/
def recv_phase (base next_seq : Nat) (ts : Bool) (ev : RecvEvent) : Option SenderS :=
  match ev with
  | .timeout => if ts then some ⟨base, next_seq, ts⟩ else none
  | .packet d =>
    match extract_packet d with
    | none => none
    | some ((_, ack, flags, _), _) =>
      if flags &&& ack_flag ≠ 0 then
        if ts then
          if base ≤ ack then some ⟨ack + 1, next_seq, ts⟩
          else some ⟨base, next_seq, ts⟩
        else none
      else some ⟨base, next_seq, ts⟩

/-- One iteration of the sender main loop (lines 215 to 236): the send
    phase, which also assigns timestamp whenever it sends at least one
    packet, followed by the receive phase. -/
def sender_iter (N W : Nat) (s : SenderS) (ev : RecvEvent) : Option SenderS :=
  recv_phase s.base (send_phase N W s.base s.next_seq)
    (s.ts || decide (s.next_seq < s.base + W ∧ s.next_seq ≤ N)) ev

/-- The sender main loop over a list of receive events, stopping when base
    exceeds total_chunks N (line 215), or when an iteration raises
    (none). -/
def sender_run (N W : Nat) : SenderS → List RecvEvent → Option SenderS
  | s, [] => some s
  | s, ev :: evs =>
    if N < s.base then some s
    else
      match sender_iter N W s ev with
      | none => none
      | some s2 => sender_run N W s2 evs

theorem send_go_ge (N W base : Nat) :
    ∀ fuel ns, ns ≤ send_go N W base fuel ns := by
  intro fuel
  induction fuel with
  | zero => intro ns; simp [send_go]
  | succ k ih =>
    intro ns
    rw [send_go]
    split
    · exact le_trans (by omega) (ih (ns + 1))
    · exact le_refl ns

theorem send_go_le_win (N W base : Nat) :
    ∀ fuel ns, ns ≤ base + W → send_go N W base fuel ns ≤ base + W := by
  intro fuel
  induction fuel with
  | zero => intro ns h; simpa [send_go] using h
  | succ k ih =>
    intro ns h
    rw [send_go]
    split
    case isTrue hg => exact ih (ns + 1) (by omega)
    case isFalse hg => exact h

theorem send_go_le_N (N W base : Nat) :
    ∀ fuel ns, ns ≤ N + 1 → send_go N W base fuel ns ≤ N + 1 := by
  intro fuel
  induction fuel with
  | zero => intro ns h; simpa [send_go] using h
  | succ k ih =>
    intro ns h
    rw [send_go]
    split
    case isTrue hg => exact ih (ns + 1) (by omega)
    case isFalse hg => exact h

/-- The receive phase never lowers base, never changes next_seq, and never
    changes the timestamp flag. -/
theorem recv_phase_some (base next_seq : Nat) (ts : Bool) (ev : RecvEvent)
    (s2 : SenderS) (h : recv_phase base next_seq ts ev = some s2) :
    base ≤ s2.base ∧ s2.next_seq = next_seq ∧ s2.ts = ts := by
  cases ev with
  | timeout =>
    simp only [recv_phase] at h
    split at h
    · rw [Option.some_inj] at h
      subst h
      exact ⟨le_refl _, rfl, rfl⟩
    · exact absurd h (by simp)
  | packet d =>
    simp only [recv_phase] at h
    cases hx : extract_packet d with
    | none =>
      rw [hx] at h
      exact absurd h (by simp)
    | some v =>
      obtain ⟨⟨seq, ack, flags, w⟩, p⟩ := v
      rw [hx] at h
      simp only at h
      split at h
      · split at h
        · split at h
          · rw [Option.some_inj] at h
            subst h
            refine ⟨?_, rfl, rfl⟩
            show base ≤ ack + 1
            omega
          · rw [Option.some_inj] at h
            subst h
            exact ⟨le_refl _, rfl, rfl⟩
        · exact absurd h (by simp)
      · rw [Option.some_inj] at h
        subst h
        exact ⟨le_refl _, rfl, rfl⟩

/-- One loop iteration never lowers base. -/
theorem sender_iter_base_mono (N W : Nat) (s : SenderS) (ev : RecvEvent)
    (s2 : SenderS) (h : sender_iter N W s ev = some s2) : s.base ≤ s2.base :=
  (recv_phase_some _ _ _ _ _ h).1

/-- The sender loop never lowers base. -/
theorem sender_run_base_mono (N W : Nat) :
    ∀ evs s s2, sender_run N W s evs = some s2 → s.base ≤ s2.base := by
  intro evs
  induction evs with
  | nil =>
    intro s s2 h
    rw [sender_run, Option.some_inj] at h
    subst h; exact le_refl _
  | cons ev evs ih =>
    intro s s2 h
    rw [sender_run] at h
    split at h
    · rw [Option.some_inj] at h; subst h; exact le_refl _
    · cases hit : sender_iter N W s ev with
      | none => rw [hit] at h; exact absurd h (by simp)
      | some s3 =>
        rw [hit] at h
        exact le_trans (sender_iter_base_mono N W s ev s3 hit) (ih s3 s2 h)

/-- C1 counterexample: with window_size = 0 (reachable, the client may
    request window 0 and min(0, 15) = 0) the send loop never runs, the
    local variable timestamp is never assigned, and the first ACK-flagged
    packet (here ack = 1 = base, which per the claim should advance base
    to 2) makes the log print at line 227 raise NameError, which is not
    socket.timeout and so escapes the loop: the iteration and the whole
    run abort instead of advancing base. -/
theorem c1_counterexample :
    sender_iter 1 0 ⟨1, 1, false⟩ (RecvEvent.packet [0, 0, 0, 1, 0, 2, 0, 0]) = none ∧
    sender_run 1 0 ⟨1, 1, false⟩ [RecvEvent.packet [0, 0, 0, 1, 0, 2, 0, 0]] = none := by
  decide

/-- C1 amended: once the timestamp variable has been assigned (which is
    the case from the first loop iteration on whenever window_size is at
    least 1 and there is at least one chunk), a received ACK-flagged
    packet with ack at least base advances base to exactly ack + 1, an
    ACK-flagged packet with ack below base leaves (base, next_seq)
    unchanged, and base never decreases over any completed run of the
    loop. -/
theorem c1_amended :
    (∀ base ns d seq ack flags w p,
       extract_packet d = some ((seq, ack, flags, w), p) →
       flags &&& ack_flag ≠ 0 →
       (base ≤ ack →
         recv_phase base ns true (RecvEvent.packet d) = some ⟨ack + 1, ns, true⟩) ∧
       (ack < base →
         recv_phase base ns true (RecvEvent.packet d) = some ⟨base, ns, true⟩)) ∧
    (∀ N W evs s s2, sender_run N W s evs = some s2 → s.base ≤ s2.base) := by
  constructor
  · intro base ns d seq ack flags w p hx hflag
    constructor
    · intro hle
      simp [recv_phase, hx, hflag, hle]
    · intro hlt
      simp [recv_phase, hx, hflag, Nat.not_le.mpr hlt]
  · exact fun N W evs s s2 h => sender_run_base_mono N W evs s s2 h

/-- Witness for C1 amended: a fresh ACK (ack = 5, base = 3) advances base
    to 6; a stale ACK (ack = 5, base = 7) changes nothing; a one-event run
    advances base from 1 to 2. -/
theorem c1_amended_witness :
    extract_packet [0, 0, 0, 5, 0, 2, 0, 0] = some ((0, 5, 2, 0), []) ∧
    ((2 : Nat) &&& ack_flag ≠ 0) ∧
    recv_phase 3 6 true (RecvEvent.packet [0, 0, 0, 5, 0, 2, 0, 0]) =
      some ⟨6, 6, true⟩ ∧
    recv_phase 7 9 true (RecvEvent.packet [0, 0, 0, 5, 0, 2, 0, 0]) =
      some ⟨7, 9, true⟩ ∧
    (1 : Nat) ≤ 2 := by
  refine ⟨by decide, by decide, ?_, ?_, ?_⟩
  · exact (c1_amended.1 3 6 [0, 0, 0, 5, 0, 2, 0, 0] 0 5 2 0 [] (by decide)
      (by decide)).1 (by decide)
  · exact (c1_amended.1 7 9 [0, 0, 0, 5, 0, 2, 0, 0] 0 5 2 0 [] (by decide)
      (by decide)).2 (by decide)
  · exact c1_amended.2 2 1 [RecvEvent.packet [0, 0, 0, 1, 0, 2, 0, 0]]
      ⟨1, 1, false⟩ ⟨2, 2, true⟩ (by decide)

/-- Whether an event respects the C3 side condition: any ACK number it
    carries is below next_seq (the value after the send phase of the
    iteration that receives it). -/
def event_ok (ns : Nat) (ev : RecvEvent) : Bool :=
  match ev with
  | .timeout => true
  | .packet d =>
    match extract_packet d with
    | none => true
    | some ((_, ack, flags, _), _) =>
      if flags &&& ack_flag ≠ 0 then decide (ack < ns) else true

/-- The C3 side condition along a whole run: every ACK received while the
    loop is still active is below the next_seq current at that moment. -/
def acks_ok (N W : Nat) : SenderS → List RecvEvent → Bool
  | _, [] => true
  | s, ev :: evs =>
    if N < s.base then true
    else
      event_ok (send_phase N W s.base s.next_seq) ev &&
        match sender_iter N W s ev with
        | none => true
        | some s2 => acks_ok N W s2 evs

/-- The sliding-window invariant of client_send_file. -/
def sender_inv (N W : Nat) (s : SenderS) : Prop :=
  s.base ≤ s.next_seq ∧ s.next_seq ≤ s.base + W ∧ s.next_seq ≤ N + 1

/-- Under the C3 side condition the receive phase keeps base at most
    next_seq. -/
theorem recv_phase_base_le (base ns : Nat) (ts : Bool) (ev : RecvEvent)
    (s3 : SenderS) (hev : event_ok ns ev = true) (hbase : base ≤ ns)
    (h : recv_phase base ns ts ev = some s3) : s3.base ≤ ns := by
  cases ev with
  | timeout =>
    simp only [recv_phase] at h
    split at h
    · rw [Option.some_inj] at h; subst h; exact hbase
    · exact absurd h (by simp)
  | packet d =>
    simp only [recv_phase] at h
    simp only [event_ok] at hev
    cases hx : extract_packet d with
    | none =>
      rw [hx] at h
      exact absurd h (by simp)
    | some v =>
      obtain ⟨⟨seq, ack, flags, w⟩, p⟩ := v
      rw [hx] at h
      rw [hx] at hev
      simp only at h hev
      by_cases hfl : flags &&& ack_flag ≠ 0
      · rw [if_pos hfl] at h
        rw [if_pos hfl, decide_eq_true_eq] at hev
        by_cases hts : ts = true
        · rw [if_pos hts] at h
          by_cases hba : base ≤ ack
          · rw [if_pos hba, Option.some_inj] at h
            subst h
            show ack + 1 ≤ ns
            omega
          · rw [if_neg hba, Option.some_inj] at h
            subst h
            exact hbase
        · rw [if_neg hts] at h
          exact absurd h (by simp)
      · rw [if_neg hfl, Option.some_inj] at h
        subst h
        exact hbase

/-- One loop iteration preserves the window invariant and never lowers
    base, provided its event respects the C3 side condition. -/
theorem sender_iter_inv (N W : Nat) (s : SenderS) (ev : RecvEvent) (s3 : SenderS)
    (hinv : sender_inv N W s)
    (hev : event_ok (send_phase N W s.base s.next_seq) ev = true)
    (hit : sender_iter N W s ev = some s3) :
    sender_inv N W s3 ∧ s.base ≤ s3.base := by
  obtain ⟨h1, h2, h3⟩ := hinv
  have hge : s.next_seq ≤ send_phase N W s.base s.next_seq :=
    send_go_ge N W s.base _ s.next_seq
  have hw : send_phase N W s.base s.next_seq ≤ s.base + W :=
    send_go_le_win N W s.base _ s.next_seq h2
  have hN1 : send_phase N W s.base s.next_seq ≤ N + 1 :=
    send_go_le_N N W s.base _ s.next_seq h3
  unfold sender_iter at hit
  obtain ⟨hb, hns3, _⟩ := recv_phase_some s.base (send_phase N W s.base s.next_seq) _ ev s3 hit
  have hble := recv_phase_base_le s.base (send_phase N W s.base s.next_seq) _ ev s3
    hev (le_trans h1 hge) hit
  refine ⟨⟨?_, ?_, ?_⟩, hb⟩
  · rw [hns3]; exact hble
  · rw [hns3]; omega
  · rw [hns3]; exact hN1

/-- C3: the window invariant base less or equal next_seq less or equal
    base + window_size (together with next_seq at most N + 1) holds at the
    start of client_send_file, and is preserved by every completed run of
    the loop in which each received ACK number is below the next_seq
    current on receipt; along such runs base is monotonically
    non-decreasing.  Instantiating the run with each prefix of the event
    list yields the invariant at every loop iteration. -/
theorem c3_window_invariant (N W : Nat) :
    sender_inv N W ⟨1, 1, false⟩ ∧
    ∀ evs s s2, sender_inv N W s → acks_ok N W s evs = true →
      sender_run N W s evs = some s2 →
      sender_inv N W s2 ∧ s.base ≤ s2.base := by
  refine ⟨⟨le_refl 1, ?_, ?_⟩, ?_⟩
  · show (1 : Nat) ≤ 1 + W
    omega
  · show (1 : Nat) ≤ N + 1
    omega
  intro evs
  induction evs with
  | nil =>
    intro s s2 hinv hok hrun
    rw [sender_run, Option.some_inj] at hrun
    subst hrun
    exact ⟨hinv, le_refl _⟩
  | cons ev evs ih =>
    intro s s2 hinv hok hrun
    rw [sender_run] at hrun
    rw [acks_ok] at hok
    split at hrun
    case isTrue hN =>
      rw [Option.some_inj] at hrun
      subst hrun
      exact ⟨hinv, le_refl _⟩
    case isFalse hN =>
      rw [if_neg hN] at hok
      cases hit : sender_iter N W s ev with
      | none =>
        rw [hit] at hrun
        exact absurd hrun (by simp)
      | some s3 =>
        rw [hit] at hrun
        rw [hit, Bool.and_eq_true] at hok
        obtain ⟨hev, hok3⟩ := hok
        obtain ⟨hi3, hb3⟩ := sender_iter_inv N W s ev s3 hinv hev hit
        obtain ⟨hi2, hb2⟩ := ih s3 s2 hi3 hok3 hrun
        exact ⟨hi2, le_trans hb3 hb2⟩

/-- Witness for C3: a two-chunk file, window 1, one in-order ACK. -/
theorem c3_window_invariant_witness :
    sender_inv 2 1 ⟨1, 1, false⟩ ∧
    acks_ok 2 1 ⟨1, 1, false⟩ [RecvEvent.packet [0, 0, 0, 1, 0, 2, 0, 0]] = true ∧
    sender_run 2 1 ⟨1, 1, false⟩ [RecvEvent.packet [0, 0, 0, 1, 0, 2, 0, 0]] =
      some ⟨2, 2, true⟩ ∧
    sender_inv 2 1 ⟨2, 2, true⟩ ∧ (1 : Nat) ≤ 2 := by
  refine ⟨⟨by decide, by decide, by decide⟩, by decide, by decide, ?_, ?_⟩
  · exact ((c3_window_invariant 2 1).2 [RecvEvent.packet [0, 0, 0, 1, 0, 2, 0, 0]]
      ⟨1, 1, false⟩ ⟨2, 2, true⟩ ⟨by decide, by decide, by decide⟩
      (by decide) (by decide)).1
  · exact ((c3_window_invariant 2 1).2 [RecvEvent.packet [0, 0, 0, 1, 0, 2, 0, 0]]
      ⟨1, 1, false⟩ ⟨2, 2, true⟩ ⟨by decide, by decide, by decide⟩
      (by decide) (by decide)).2

/-- Receiver state of server_receive_files (application.py lines 341 to
    382): expected_seq, the cumulative byte count total_received, the
    one-shot discard flag discard_once, and ts, recording whether the
    local variable timestamp has been assigned (it is assigned only in the
    in-order branch at line 367 and read by the out-of-order print at
    line 378; reading it unassigned raises NameError). -/
structure RecvS where
  expected_seq : Nat
  total_received : Nat
  discard_once : Bool
  ts : Bool
deriving DecidableEq

/-- Python truthiness of the discard_seq argument (None and 0 are falsy),
    used both to initialise discard_once (line 344) and in the discard
    condition (line 362). -/
def discardTruthy : Option Nat → Bool
  | none => false
  | some k => decide (k ≠ 0)

/-- The discard condition of line 362: discard_seq and
    seq == discard_seq and discard_once. -/
def discard_hit (ds : Option Nat) (seq : Nat) (once : Bool) : Bool :=
  match ds with
  | none => false
  | some k => decide (k ≠ 0) && decide (seq = k) && once

/-- Outcome of one iteration of the receiver loop, one constructor per
    code path: finStop answers FIN with a FIN-ACK and breaks (lines 355
    to 360); dropOnce consumes the one-shot discard (lines 362 to 364);
    accept writes the payload, sends an ACK and advances state (lines 366
    to 374); outOfOrder logs and continues unchanged (lines 376 to 378);
    errStop is an exception caught by the handler at line 380 followed by
    break - a short datagram (struct.error in extract_packet) or the
    NameError from printing the unassigned timestamp in the out-of-order
    branch. -/
inductive SStep where
  | finStop (finAck : List Nat)
  | dropOnce (s2 : RecvS)
  | accept (s2 : RecvS) (written : List Nat) (ackPkt : List Nat)
  | outOfOrder (s2 : RecvS)
  | errStop
deriving DecidableEq

/-- One iteration of the receiver loop of server_receive_files on a
    received datagram. -/
def server_step (ds : Option Nat) (s : RecvS) (dgram : List Nat) : SStep :=
  match extract_packet dgram with
  | none => .errStop
  | some ((seq, _, flags, _), payload) =>
    if flags &&& fin_flag ≠ 0 then
      match create_packet 0 0 (fin_flag ||| ack_flag) 0 [] with
      | none => .errStop
      | some fa => .finStop fa
    else if discard_hit ds seq s.discard_once then
      .dropOnce ⟨s.expected_seq, s.total_received, false, s.ts⟩
    else if seq = s.expected_seq then
      match create_packet 0 seq ack_flag 0 [] with
      | none => .errStop
      | some ap =>
        .accept ⟨s.expected_seq + 1, s.total_received + payload.length,
                 s.discard_once, true⟩ payload ap
    else if s.ts then .outOfOrder s
    else .errStop

/-- Bytes an iteration appends to the output file. -/
def stepWritten : SStep → List Nat
  | .accept _ w _ => w
  | _ => []

/-- Datagrams an iteration sends back to the client. -/
def stepSent : SStep → List (List Nat)
  | .accept _ _ ap => [ap]
  | .finStop fa => [fa]
  | _ => []

/-- How a receiver run ended: the datagram list ran out, a FIN broke the
    loop, or a caught exception broke the loop. -/
inductive EndK where
  | ranOut
  | fin
  | err
deriving DecidableEq

/-- Aggregate result of a receiver run: final state, bytes written to the
    sink, datagrams sent, number of packets consumed by the one-shot
    discard, and how the loop ended. -/
structure RunR where
  state : RecvS
  written : List Nat
  sent : List (List Nat)
  drops : Nat
  ended : EndK
deriving DecidableEq

/-- The receiver loop of server_receive_files over a list of incoming
    datagrams. -/
def server_run (ds : Option Nat) : RecvS → List (List Nat) → RunR
  | s, [] => ⟨s, [], [], 0, .ranOut⟩
  | s, d :: rest =>
    match server_step ds s d with
    | .errStop => ⟨s, [], [], 0, .err⟩
    | .finStop fa => ⟨s, [], [fa], 0, .fin⟩
    | .dropOnce s2 =>
      let r := server_run ds s2 rest
      ⟨r.state, r.written, r.sent, r.drops + 1, r.ended⟩
    | .outOfOrder s2 => server_run ds s2 rest
    | .accept s2 wr ap =>
      let r := server_run ds s2 rest
      ⟨r.state, wr ++ r.written, ap :: r.sent, r.drops, r.ended⟩

/-- Initial receiver state (lines 341 to 344): expected_seq 1, no bytes,
    discard_once set from the truthiness of discard_seq, timestamp
    unassigned. -/
def server_init (ds : Option Nat) : RecvS := ⟨1, 0, discardTruthy ds, false⟩

/-- Inversion of the discard path: it fires only when discard_once is
    still set and a discard target is configured, and it only clears the
    flag. -/
theorem server_step_dropOnce_inv (ds : Option Nat) (s : RecvS) (d : List Nat)
    (s2 : RecvS) (h : server_step ds s d = SStep.dropOnce s2) :
    s.discard_once = true ∧
    s2 = ⟨s.expected_seq, s.total_received, false, s.ts⟩ ∧ ds ≠ none := by
  unfold server_step at h
  cases hx : extract_packet d with
  | none =>
    rw [hx] at h
    exact absurd h (by simp)
  | some v =>
    obtain ⟨⟨seq, ack, flags, w⟩, p⟩ := v
    rw [hx] at h
    simp only at h
    split at h
    · split at h <;> simp at h
    · split at h
      case isTrue hd =>
        have hs2 : s2 = ⟨s.expected_seq, s.total_received, false, s.ts⟩ := by
          injection h with h2
          exact h2.symm
        unfold discard_hit at hd
        cases ds with
        | none => exact absurd hd (by simp)
        | some k =>
          rw [Bool.and_eq_true] at hd
          exact ⟨hd.2, hs2, by simp⟩
      case isFalse hd =>
        split at h
        · split at h <;> simp at h
        · split at h <;> simp at h

/-- With the one-shot discard flag cleared, the receiver handles every
    datagram exactly as it would with no discard target configured. -/
theorem server_step_no_discard (ds : Option Nat) (s : RecvS) (d : List Nat)
    (hflag : s.discard_once = false) :
    server_step ds s d = server_step none s d := by
  unfold server_step
  cases hx : extract_packet d with
  | none => rfl
  | some v =>
    obtain ⟨⟨seq, ack, flags, w⟩, p⟩ := v
    simp only
    have hd : discard_hit ds seq s.discard_once = false := by
      rw [hflag]
      unfold discard_hit
      cases ds with
      | none => rfl
      | some k => simp
    have hd0 : discard_hit none seq s.discard_once = false := rfl
    rw [hd, hd0]

/-- Inversion of the in-order path: it keeps the discard flag. -/
theorem server_step_accept_inv (ds : Option Nat) (s : RecvS) (d : List Nat)
    (s2 : RecvS) (wr ap : List Nat)
    (h : server_step ds s d = SStep.accept s2 wr ap) :
    s2.discard_once = s.discard_once := by
  unfold server_step at h
  cases hx : extract_packet d with
  | none =>
    rw [hx] at h
    exact absurd h (by simp)
  | some v =>
    obtain ⟨⟨seq, ack, flags, w⟩, p⟩ := v
    rw [hx] at h
    simp only at h
    split at h
    · split at h <;> simp at h
    · split at h
      · simp at h
      · split at h
        · split at h
          · simp at h
          · injection h with h2 h3 h4
            rw [h2.symm]
        · split at h <;> simp at h

/-- Inversion of the out-of-order path: the state is returned unchanged. -/
theorem server_step_ooo_inv (ds : Option Nat) (s : RecvS) (d : List Nat)
    (s2 : RecvS) (h : server_step ds s d = SStep.outOfOrder s2) : s2 = s := by
  unfold server_step at h
  cases hx : extract_packet d with
  | none =>
    rw [hx] at h
    exact absurd h (by simp)
  | some v =>
    obtain ⟨⟨seq, ack, flags, w⟩, p⟩ := v
    rw [hx] at h
    simp only at h
    split at h
    · split at h <;> simp at h
    · split at h
      · simp at h
      · split at h
        · split at h <;> simp at h
        · split at h
          · injection h with h2
            exact h2.symm
          · simp at h

/-- A non-FIN datagram that parses, is not taken by the discard path, and
    carries the wrong sequence number reaches the out-of-order branch:
    if timestamp is assigned the loop continues with the state unchanged,
    otherwise the print raises NameError and the loop breaks. -/
theorem server_step_ooo_shape (ds : Option Nat) (s : RecvS) (d : List Nat)
    (seq ack flags w : Nat) (p : List Nat)
    (hx : extract_packet d = some ((seq, ack, flags, w), p))
    (hfin : flags &&& fin_flag = 0)
    (hdis : discard_hit ds seq s.discard_once = false)
    (hseq : seq ≠ s.expected_seq) :
    server_step ds s d = if s.ts then SStep.outOfOrder s else SStep.errStop := by
  unfold server_step
  rw [hx]
  simp only
  rw [if_neg (by rw [hfin]; simp), if_neg (by rw [hdis]; simp), if_neg hseq]

/-- A run from a state whose discard flag is cleared never consumes the
    one-shot discard. -/
theorem server_run_drops_zero (ds : Option Nat) :
    ∀ dl s, s.discard_once = false → (server_run ds s dl).drops = 0 := by
  intro dl
  induction dl with
  | nil => intro s h; rfl
  | cons d rest ih =>
    intro s h
    rw [server_run]
    cases hst : server_step ds s d with
    | errStop => rfl
    | finStop fa => rfl
    | dropOnce s2 =>
      exact absurd (server_step_dropOnce_inv ds s d s2 hst).1 (by rw [h]; simp)
    | outOfOrder s2 =>
      rw [server_step_ooo_inv ds s d s2 hst] at *
      show (server_run ds s rest).drops = 0
      exact ih s h
    | accept s2 wr ap =>
      show (server_run ds s2 rest).drops = 0
      exact ih s2 (by rw [server_step_accept_inv ds s d s2 wr ap hst, h])

/-- Any receiver run consumes the one-shot discard at most once, and
    never if the flag starts cleared. -/
theorem server_run_drops_le (ds : Option Nat) :
    ∀ dl s, (server_run ds s dl).drops ≤ if s.discard_once then 1 else 0 := by
  intro dl
  induction dl with
  | nil =>
    intro s
    show 0 ≤ _
    split <;> omega
  | cons d rest ih =>
    intro s
    rw [server_run]
    cases hst : server_step ds s d with
    | errStop =>
      show 0 ≤ _
      split <;> omega
    | finStop fa =>
      show 0 ≤ _
      split <;> omega
    | dropOnce s2 =>
      obtain ⟨hflag, hs2, _⟩ := server_step_dropOnce_inv ds s d s2 hst
      show (server_run ds s2 rest).drops + 1 ≤ _
      rw [hflag, server_run_drops_zero ds rest s2 (by rw [hs2])]
      simp
    | outOfOrder s2 =>
      rw [server_step_ooo_inv ds s d s2 hst] at *
      show (server_run ds s rest).drops ≤ _
      exact ih s
    | accept s2 wr ap =>
      show (server_run ds s2 rest).drops ≤ _
      rw [show s.discard_once = s2.discard_once from
        (server_step_accept_inv ds s d s2 wr ap hst).symm]
      exact ih s2

/-- C2: a processed datagram that parses, has no FIN flag, is not taken by
    the one-time discard, and carries a sequence number different from
    expected_seq leads to no write to the sink, no datagram sent in
    response, and an unchanged state: either the out-of-order branch logs
    and continues with the very same state, or (timestamp still
    unassigned) the loop breaks, again with nothing written or sent and
    nothing advanced. -/
theorem c2_out_of_order_silent (ds : Option Nat) (s : RecvS) (d : List Nat)
    (seq ack flags w : Nat) (p : List Nat)
    (hx : extract_packet d = some ((seq, ack, flags, w), p))
    (hfin : flags &&& fin_flag = 0)
    (hdis : discard_hit ds seq s.discard_once = false)
    (hseq : seq ≠ s.expected_seq) :
    stepWritten (server_step ds s d) = [] ∧
    stepSent (server_step ds s d) = [] ∧
    (server_step ds s d = SStep.outOfOrder s ∨ server_step ds s d = SStep.errStop) := by
  rw [server_step_ooo_shape ds s d seq ack flags w p hx hfin hdis hseq]
  by_cases hts : s.ts = true
  · rw [if_pos hts]
    exact ⟨rfl, rfl, Or.inl rfl⟩
  · rw [if_neg hts]
    exact ⟨rfl, rfl, Or.inr rfl⟩

/-- Witness for C2: state after one in-order packet, then a duplicate of
    packet 2 arriving while packet 3 is expected. -/
theorem c2_out_of_order_silent_witness :
    extract_packet [0, 2, 0, 0, 0, 0, 0, 0] = some ((2, 0, 0, 0), []) ∧
    ((0 : Nat) &&& fin_flag = 0) ∧
    discard_hit none 2 false = false ∧
    ((2 : Nat) ≠ 3) ∧
    stepWritten (server_step none ⟨3, 10, false, true⟩ [0, 2, 0, 0, 0, 0, 0, 0]) = [] ∧
    stepSent (server_step none ⟨3, 10, false, true⟩ [0, 2, 0, 0, 0, 0, 0, 0]) = [] := by
  refine ⟨by decide, by decide, by decide, by decide, ?_, ?_⟩
  · exact (c2_out_of_order_silent none ⟨3, 10, false, true⟩ [0, 2, 0, 0, 0, 0, 0, 0]
      2 0 0 0 [] (by decide) (by decide) (by decide) (by decide)).1
  · exact (c2_out_of_order_silent none ⟨3, 10, false, true⟩ [0, 2, 0, 0, 0, 0, 0, 0]
      2 0 0 0 [] (by decide) (by decide) (by decide) (by decide)).2.1

/-- C6: with discard_seq = k (k at least 1), the first processed non-FIN
    packet with sequence number k while the flag is set is silently
    dropped, clearing the flag and writing and sending nothing; once the
    flag is cleared every datagram (in particular any later copy of k) is
    handled exactly by the normal rules (the step function coincides with
    the one for no configured discard); with no discard target the discard
    path never fires; and over any run the discard mechanism drops at most
    one packet, none when no target is configured. -/
theorem c6_discard_once (k : Nat) (hk : 1 ≤ k) :
    (∀ s d seq ack flags w p,
       extract_packet d = some ((seq, ack, flags, w), p) →
       flags &&& fin_flag = 0 → seq = k → s.discard_once = true →
       server_step (some k) s d =
         SStep.dropOnce ⟨s.expected_seq, s.total_received, false, s.ts⟩ ∧
       stepWritten (server_step (some k) s d) = [] ∧
       stepSent (server_step (some k) s d) = []) ∧
    (∀ s d, s.discard_once = false →
       server_step (some k) s d = server_step none s d) ∧
    (∀ s d s2, server_step none s d ≠ SStep.dropOnce s2) ∧
    (∀ s dl, (server_run (some k) s dl).drops ≤ if s.discard_once then 1 else 0) ∧
    (∀ s dl, (server_run none s dl).drops = 0) := by
  refine ⟨?_, ?_, ?_, ?_, ?_⟩
  · intro s d seq ack flags w p hx hfin hseq hflag
    have hstep : server_step (some k) s d =
        SStep.dropOnce ⟨s.expected_seq, s.total_received, false, s.ts⟩ := by
      unfold server_step
      rw [hx]
      simp only
      rw [if_neg (by rw [hfin]; simp)]
      rw [if_pos (by unfold discard_hit; subst hseq; rw [hflag]; simp; omega)]
    rw [hstep]
    exact ⟨rfl, rfl, rfl⟩
  · exact fun s d h => server_step_no_discard (some k) s d h
  · exact fun s d s2 h => (server_step_dropOnce_inv none s d s2 h).2.2 rfl
  · exact fun s dl => server_run_drops_le (some k) dl s
  · intro s dl
    induction dl generalizing s with
    | nil => rfl
    | cons d rest ih =>
      rw [server_run]
      cases hst : server_step none s d with
      | errStop => rfl
      | finStop fa => rfl
      | dropOnce s2 => exact absurd rfl (server_step_dropOnce_inv none s d s2 hst).2.2
      | outOfOrder s2 =>
        show (server_run none s2 rest).drops = 0
        exact ih s2
      | accept s2 wr ap =>
        show (server_run none s2 rest).drops = 0
        exact ih s2

/-- Witness for C6 with k = 2: the first copy of packet 2 is dropped with
    the flag set; with the flag cleared the step equals the undiscarded
    one; a one-datagram run drops at most once and, unconfigured, never. -/
theorem c6_discard_once_witness :
    (1 : Nat) ≤ 2 ∧
    server_step (some 2) ⟨1, 5, true, false⟩ [0, 2, 0, 0, 0, 0, 0, 0] =
      SStep.dropOnce ⟨1, 5, false, false⟩ ∧
    server_step (some 2) ⟨1, 0, false, false⟩ [0, 1, 0, 0, 0, 0, 0, 0] =
      server_step none ⟨1, 0, false, false⟩ [0, 1, 0, 0, 0, 0, 0, 0] ∧
    (server_run (some 2) (server_init (some 2)) [[0, 2, 0, 0, 0, 0, 0, 0]]).drops ≤ 1 ∧
    (server_run none (server_init none) [[0, 2, 0, 0, 0, 0, 0, 0]]).drops = 0 := by
  refine ⟨by decide, ?_, ?_, ?_, ?_⟩
  · exact ((c6_discard_once 2 (by decide)).1 ⟨1, 5, true, false⟩
      [0, 2, 0, 0, 0, 0, 0, 0] 2 0 0 0 [] (by decide) (by decide) rfl rfl).1
  · exact (c6_discard_once 2 (by decide)).2.1 ⟨1, 0, false, false⟩
      [0, 1, 0, 0, 0, 0, 0, 0] rfl
  · exact (c6_discard_once 2 (by decide)).2.2.2.1 (server_init (some 2))
      [[0, 2, 0, 0, 0, 0, 0, 0]]
  · exact (c6_discard_once 2 (by decide)).2.2.2.2 (server_init none)
      [[0, 2, 0, 0, 0, 0, 0, 0]]

/-- C8 counterexample: a 3-byte datagram is not merely dropped with the
    loops continuing.  On the receiver, extract_packet raises
    struct.error, the handler at line 380 catches it and breaks: the
    session receive loop ends, and a well-formed in-order packet queued
    right behind the malformed one is never processed.  On the sender, the
    receive phase only catches socket.timeout, so the same struct.error
    escapes client_send_file and aborts it. -/
theorem c8_counterexample :
    server_step none ⟨1, 0, false, false⟩ [0, 0, 0] = SStep.errStop ∧
    recv_phase 1 1 true (RecvEvent.packet [0, 0, 0]) = none ∧
    server_run none (server_init none) [[0, 0, 0], [0, 1, 0, 0, 0, 0, 0, 0]] =
      ⟨server_init none, [], [], 0, EndK.err⟩ := by
  decide

/-- C8 amended: a datagram shorter than 8 bytes raises a header-parse
    error wherever it is received; in server_receive_files the exception
    is caught, logged, and the receive loop breaks (state unchanged but
    the session receive ends), while in the ACK wait of client_send_file
    only socket.timeout is caught, so the error propagates and aborts the
    sender. -/
theorem c8_amended (ds : Option Nat) (s : RecvS) (base next_seq : Nat)
    (ts : Bool) (d : List Nat) (hd : d.length < 8) :
    server_step ds s d = SStep.errStop ∧
    recv_phase base next_seq ts (RecvEvent.packet d) = none := by
  have hx := extract_packet_short d hd
  constructor
  · unfold server_step
    rw [hx]
  · simp only [recv_phase, hx]

/-- Witness for C8 amended on a 5-byte datagram. -/
theorem c8_amended_witness :
    ([1, 2, 3, 4, 5] : List Nat).length < 8 ∧
    server_step (some 3) ⟨2, 99, true, true⟩ [1, 2, 3, 4, 5] = SStep.errStop ∧
    recv_phase 4 7 false (RecvEvent.packet [1, 2, 3, 4, 5]) = none := by
  refine ⟨by decide, ?_, ?_⟩
  · exact (c8_amended (some 3) ⟨2, 99, true, true⟩ 4 7 false [1, 2, 3, 4, 5]
      (by decide)).1
  · exact (c8_amended (some 3) ⟨2, 99, true, true⟩ 4 7 false [1, 2, 3, 4, 5]
      (by decide)).2

/-- C10: if the very first non-FIN, non-discarded data packet processed
    from the initial state carries a sequence number other than 1, the
    out-of-order print reads the never-assigned timestamp variable, the
    resulting NameError is caught and the receive loop breaks at once:
    nothing is written, no ACK and no FIN-ACK is sent, no later datagram
    is processed, and the run ends by error without any FIN exchange.
    The second part states the same for any state with timestamp still
    unassigned, and the third part shows the discard path keeps timestamp
    unassigned and the state unadvanced, so initial discarded packets do
    not affect the first part. -/
theorem c10_first_out_of_order_aborts :
    (∀ ds d rest seq ack flags w p,
       extract_packet d = some ((seq, ack, flags, w), p) →
       flags &&& fin_flag = 0 →
       discard_hit ds seq (discardTruthy ds) = false →
       seq ≠ 1 →
       server_run ds (server_init ds) (d :: rest) =
         ⟨server_init ds, [], [], 0, EndK.err⟩) ∧
    (∀ ds s d seq ack flags w p,
       extract_packet d = some ((seq, ack, flags, w), p) →
       flags &&& fin_flag = 0 →
       discard_hit ds seq s.discard_once = false →
       seq ≠ s.expected_seq → s.ts = false →
       server_step ds s d = SStep.errStop) ∧
    (∀ ds s d s2, server_step ds s d = SStep.dropOnce s2 →
       s2.ts = s.ts ∧ s2.expected_seq = s.expected_seq ∧
       s2.total_received = s.total_received) := by
  have hstep : ∀ (ds : Option Nat) (s : RecvS) d seq ack flags w p,
      extract_packet d = some ((seq, ack, flags, w), p) →
      flags &&& fin_flag = 0 →
      discard_hit ds seq s.discard_once = false →
      seq ≠ s.expected_seq → s.ts = false →
      server_step ds s d = SStep.errStop := by
    intro ds s d seq ack flags w p hx hfin hdis hseq hts
    rw [server_step_ooo_shape ds s d seq ack flags w p hx hfin hdis hseq,
      if_neg (by rw [hts]; simp)]
  refine ⟨?_, hstep, ?_⟩
  · intro ds d rest seq ack flags w p hx hfin hdis hseq
    rw [server_run, hstep ds (server_init ds) d seq ack flags w p hx hfin hdis hseq rfl]
  · intro ds s d s2 h
    obtain ⟨_, hs2, _⟩ := server_step_dropOnce_inv ds s d s2 h
    rw [hs2]
    exact ⟨rfl, rfl, rfl⟩

/-- Witness for C10: server configured with discard_seq = 3, first
    datagram is packet 2 (expected is 1); the run aborts and the
    well-formed packet 1 behind it is never processed. -/
theorem c10_first_out_of_order_aborts_witness :
    extract_packet [0, 2, 0, 0, 0, 0, 0, 0] = some ((2, 0, 0, 0), []) ∧
    ((0 : Nat) &&& fin_flag = 0) ∧
    discard_hit (some 3) 2 (discardTruthy (some 3)) = false ∧
    ((2 : Nat) ≠ 1) ∧
    server_run (some 3) (server_init (some 3))
        [[0, 2, 0, 0, 0, 0, 0, 0], [0, 1, 0, 0, 0, 0, 0, 0]] =
      ⟨server_init (some 3), [], [], 0, EndK.err⟩ := by
  refine ⟨by decide, by decide, by decide, by decide, ?_⟩
  exact c10_first_out_of_order_aborts.1 (some 3) [0, 2, 0, 0, 0, 0, 0, 0]
    [[0, 1, 0, 0, 0, 0, 0, 0]] 2 0 0 0 [] (by decide) (by decide) (by decide)
    (by decide)

end DRTP
